import Mathlib

/-!
Verification development for the RO (reverse osmosis) log-mean simulator
(`functions.py`).  The numeric code is embedded over the real numbers:
Python floats become `ℝ`, `math.log` becomes `Real.log`, and the two Python
exception sources (`math.log` on a non-positive argument raising
`ValueError: math domain error`, and float division by zero raising
`ZeroDivisionError`) are made explicit with an `Except` monad.  All guarded
divisions in the source check their denominators against explicit epsilons,
so only the two `math.log`-related operations can raise.
-/

noncomputable section

/-- Possible Python exceptions raised by the embedded code.  `productNotFound`
is the `ValueError` raised at `functions.py:96`; `mathDomainError` is the
`ValueError` raised by `math.log` on a non-positive argument;
`zeroDivisionError` is raised by float division by zero. -/
inductive PyError where
  | productNotFound (name : String)
  | mathDomainError
  | zeroDivisionError
deriving DecidableEq

/-- Membrane spec record, one entry of the `membranes` mapping
(`functions.py:98-103`). -/
structure MembraneSpec where
  A_value : ℝ
  B_value : ℝ
  area_m2 : ℝ
  default_dP_element : ℝ
  default_osm_coef : ℝ

/-- The five values returned by `calc_element_logmean` (`functions.py:81`). -/
structure ElemOut where
  Qp : ℝ
  Cp : ℝ
  Qc : ℝ
  Cc : ℝ
  p_out : ℝ

/-- The result dict built by `simulate_ro_logmean` (`functions.py:144-159`);
`Recovery_pct` is the key `Recovery_%`, other names keep the key's first
component. -/
structure SimResult where
  Selected_Product : String
  FeedFlow : ℝ
  FeedTDS : ℝ
  Temperature_degC : ℝ
  Number_of_Elements : ℕ
  PermeateFlow : ℝ
  Recovery_pct : ℝ
  PermeateTDS : ℝ
  ConcentrateFlow : ℝ
  ConcentrateTDS : ℝ
  FinalPressure : ℝ

/-- Embedding of Python `math.log`: raises `ValueError` (math domain error)
on a non-positive argument, otherwise returns `Real.log`. -/
def pyLog (x : ℝ) : Except PyError ℝ :=
  if x ≤ 0 then .error .mathDomainError else .ok (Real.log x)

/-- Embedding of Python float division: raises `ZeroDivisionError` when the
denominator is zero. -/
def pyDiv (a b : ℝ) : Except PyError ℝ :=
  if b = 0 then .error .zeroDivisionError else .ok (a / b)

/-- The flooring pattern `if x < 1e-5: x = 1e-5` used at `functions.py:38-39`
(pressure) and `functions.py:43-44` (concentration). -/
def floor5 (x : ℝ) : ℝ := if x < 1e-5 then 1e-5 else x

/-- One pass of the `for _ in range(5)` loop of `calc_element_logmean`
(`functions.py:27-66`).  The mutable loop state is
(`Qp_guess`, `Cp_guess`, `p_out_approx`); note the 1e-5 floor assignment to
`p_out_approx` persists across passes, so the floored value is returned as
the new third state component. -/
def calcPass (qf_in cf_in pin area_m2 A_value B_value osm_coef
    Qp_guess Cp_guess p0 : ℝ) : Except PyError (ℝ × ℝ × ℝ) :=
  let Qc_guess := qf_in - Qp_guess
  let salt_c := qf_in * cf_in - Qp_guess * Cp_guess
  let Cc_g1 := if Qc_guess > 1e-12 then salt_c / Qc_guess else cf_in
  let p_out_approx := floor5 p0
  match pyLog (pin / p_out_approx) with
  | .error e => .error e
  | .ok lp =>
    match pyDiv (pin - p_out_approx) lp with
    | .error e => .error e
    | .ok p_avg =>
      let Cc_g2 := floor5 Cc_g1
      match (if |cf_in - Cc_g2| > 1e-10 then
          (match pyLog (cf_in / Cc_g2) with
          | .error e => .error e
          | .ok lc => pyDiv (cf_in - Cc_g2) lc : Except PyError ℝ)
        else .ok cf_in) with
      | .error e => .error e
      | .ok cf_avg =>
        let NDP0 := p_avg - osm_coef * cf_avg
        let NDP := if NDP0 < 0 then (0 : ℝ) else NDP0
        let Qp_new := A_value * 3600 * NDP * area_m2
        let Js := B_value * 3600 * cf_avg * area_m2
        let Cp_new := if Qp_new > 1e-12 then Js / Qp_new else cf_in
        .ok (Qp_new, Cp_new, p_out_approx)

/-- The bounded iteration of `calcPass`: `calcLoop … n st` runs `n`
successive passes starting from state `st`, aborting on the first raised
exception (Python unwinds the loop on an exception). -/
def calcLoop (qf_in cf_in pin area_m2 A_value B_value osm_coef : ℝ) :
    ℕ → ℝ × ℝ × ℝ → Except PyError (ℝ × ℝ × ℝ)
  | 0, st => .ok st
  | n + 1, st =>
      match calcPass qf_in cf_in pin area_m2 A_value B_value osm_coef
          st.1 st.2.1 st.2.2 with
      | .error e => .error e
      | .ok st' => calcLoop qf_in cf_in pin area_m2 A_value B_value osm_coef n st'

/-- Embedding of `calc_element_logmean` (`functions.py:16-81`): initial
`p_out_approx = max(pin - dP_element, 0.0)`, seed guesses `(1.0, 50.0)`,
exactly 5 passes, then the final mass-balance assembly of lines 68-81. -/
def calc_element_logmean (qf_in cf_in pin area_m2 A_value B_value
    dP_element osm_coef : ℝ) : Except PyError ElemOut :=
  match calcLoop qf_in cf_in pin area_m2 A_value B_value osm_coef 5
      (1, 50, max (pin - dP_element) 0) with
  | .error e => .error e
  | .ok st =>
      let Qp := st.1
      let Cp := st.2.1
      let Qc := qf_in - Qp
      let Cc := if Qc > 1e-12 then (qf_in * cf_in - Qp * Cp) / Qc else cf_in
      .ok ⟨Qp, Cp, Qc, Cc, max (pin - dP_element) 0⟩

/-- Temperature correction factor of `simulate_ro_logmean`
(`functions.py:106-111`): `tcf = 1 + 0.03·(t − 25)` floored at 0. -/
def tcf_code (temperature : ℝ) : ℝ :=
  if 1 + 0.03 * (temperature - 25) < 0 then 0 else 1 + 0.03 * (temperature - 25)

/-- The element loop of `simulate_ro_logmean` (`functions.py:123-139`).
State is the running stream `(q_in, c_in, p_in)`; the accumulator is
`(total_permeate, total_salt_perm)`. -/
def simLoop (area_m2 A_corr B_corr dP_element osm_coef : ℝ) :
    ℕ → ℝ × ℝ × ℝ → ℝ × ℝ → Except PyError ((ℝ × ℝ × ℝ) × (ℝ × ℝ))
  | 0, st, tot => .ok (st, tot)
  | n + 1, st, tot =>
      match calc_element_logmean st.1 st.2.1 st.2.2 area_m2 A_corr B_corr
          dP_element osm_coef with
      | .error e => .error e
      | .ok eo =>
          simLoop area_m2 A_corr B_corr dP_element osm_coef n
            (eo.Qc, eo.Cc, eo.p_out) (tot.1 + eo.Qp, tot.2 + eo.Qp * eo.Cp)

/-- Embedding of `simulate_ro_logmean` (`functions.py:83-161`).  The
`membrane_data` dict is a key/value list; the `product_name not in
membrane_data` check of line 95 happens before anything else. -/
def simulate_ro_logmean (feed_flow feed_tds feed_press temperature : ℝ)
    (product_name : String) (num_elements : ℕ)
    (membrane_data : List (String × MembraneSpec)) : Except PyError SimResult :=
  match membrane_data.lookup product_name with
  | none => .error (.productNotFound product_name)
  | some spec =>
      let A_corr := spec.A_value * tcf_code temperature
      let B_corr := spec.B_value * tcf_code temperature
      match simLoop spec.area_m2 A_corr B_corr spec.default_dP_element
          spec.default_osm_coef num_elements (feed_flow, feed_tds, feed_press)
          (0, 0) with
      | .error e => .error e
      | .ok (st, tot) =>
          .ok ⟨product_name, feed_flow, feed_tds, temperature, num_elements,
               tot.1,
               if feed_flow > 1e-12 then tot.1 / feed_flow * 100 else 0,
               if tot.1 > 1e-12 then tot.2 / tot.1 else 0,
               st.1, st.2.1, st.2.2⟩

/-- Number of loop passes actually executed by `calcLoop` before it returns
or raises (instrumentation of the embedded loop; a pass that raises still
counts as executed up to the raise). -/
def calcLoopCount (qf_in cf_in pin area_m2 A_value B_value osm_coef : ℝ) :
    ℕ → ℝ × ℝ × ℝ → ℕ
  | 0, _ => 0
  | n + 1, st =>
      match calcPass qf_in cf_in pin area_m2 A_value B_value osm_coef
          st.1 st.2.1 st.2.2 with
      | .error _ => 1
      | .ok st' =>
          1 + calcLoopCount qf_in cf_in pin area_m2 A_value B_value osm_coef n st'

/-- Passes executed by one `calc_element_logmean` call. -/
def elementPassCount (qf_in cf_in pin area_m2 A_value B_value
    dP_element osm_coef : ℝ) : ℕ :=
  calcLoopCount qf_in cf_in pin area_m2 A_value B_value osm_coef 5
    (1, 50, max (pin - dP_element) 0)

/-- Element-solver passes executed by the element loop of
`simulate_ro_logmean`. -/
def simPassCount (area_m2 A_corr B_corr dP_element osm_coef : ℝ) :
    ℕ → ℝ × ℝ × ℝ → ℕ
  | 0, _ => 0
  | n + 1, st =>
      elementPassCount st.1 st.2.1 st.2.2 area_m2 A_corr B_corr
        dP_element osm_coef +
      (match calc_element_logmean st.1 st.2.1 st.2.2 area_m2 A_corr B_corr
          dP_element osm_coef with
       | .error _ => 0
       | .ok eo =>
           simPassCount area_m2 A_corr B_corr dP_element osm_coef n
             (eo.Qc, eo.Cc, eo.p_out))

/-- Total element-solver passes executed by one `simulate_ro_logmean` call. -/
def simulatePassCount (feed_flow feed_tds feed_press temperature : ℝ)
    (product_name : String) (num_elements : ℕ)
    (membrane_data : List (String × MembraneSpec)) : ℕ :=
  match membrane_data.lookup product_name with
  | none => 0
  | some spec =>
      simPassCount spec.area_m2 (spec.A_value * tcf_code temperature)
        (spec.B_value * tcf_code temperature) spec.default_dP_element
        spec.default_osm_coef num_elements (feed_flow, feed_tds, feed_press)

/-- History record written by `append_result_to_csv` (`functions.py:187-202`):
the timestamp column followed by the 11 result fields.  Each row copies the
result's fields (`result_dict.get` defaults never fire since the simulate
result always carries all keys). -/
structure HistRecord where
  Timestamp : String
  Selected_Product : String
  FeedFlow : ℝ
  FeedTDS : ℝ
  Temperature_degC : ℝ
  Number_of_Elements : ℕ
  PermeateFlow : ℝ
  Recovery_pct : ℝ
  PermeateTDS : ℝ
  ConcentrateFlow : ℝ
  ConcentrateTDS : ℝ
  FinalPressure : ℝ

/-- The row dict built at `functions.py:189-202` from a result and the
timestamp taken at append time. -/
def row_of_result (ts : String) (r : SimResult) : HistRecord :=
  ⟨ts, r.Selected_Product, r.FeedFlow, r.FeedTDS, r.Temperature_degC,
   r.Number_of_Elements, r.PermeateFlow, r.Recovery_pct, r.PermeateTDS,
   r.ConcentrateFlow, r.ConcentrateTDS, r.FinalPressure⟩

/-- Embedding of `append_result_to_csv` (`functions.py:167-211`).  The CSV
file is modelled as `Option (List HistRecord)`: `none` is an absent file.
A missing file is created (header plus first row); an existing file gets
one row appended in append mode, leaving prior rows untouched. -/
def append_result_to_csv (r : SimResult) (ts : String)
    (file : Option (List HistRecord)) : Option (List HistRecord) :=
  match file with
  | none => some [row_of_result ts r]
  | some rows => some (rows ++ [row_of_result ts r])

/-- Embedding of `load_calculation_history` (`functions.py:213-228`): an
absent file loads as the empty list, otherwise all rows in file order. -/
def load_calculation_history (file : Option (List HistRecord)) :
    List HistRecord :=
  match file with
  | none => []
  | some rows => rows

/-- Folding a batch of (result, timestamp) pairs into the history file by
repeated `append_result_to_csv`. -/
def appendAll (batch : List (SimResult × String))
    (file : Option (List HistRecord)) : Option (List HistRecord) :=
  batch.foldl (fun acc x => append_result_to_csv x.1 x.2 acc) file

/-- Inlet pressure of the counterexample element runs built around
`Real.exp 1`, chosen so the internal log-mean pressure is exactly
computable: with `dP_element = pinE` the floored outlet approximation is
`1e-5` and `pinE / 1e-5 = exp 1`. -/
def pinE : ℝ := Real.exp 1 * 1e-5

/-- A coefficient making the converged permeate flow exactly 1 m³/h at
inlet pressure `pinE`. -/
def AE : ℝ := 1 / (3600 * (pinE - 1e-5))

/-- B coefficient making the converged permeate concentration exactly
50 mg/L (the seed) in the concrete runs. -/
def BE : ℝ := 1 / 3600

/-- A coefficient making the converged permeate flow exactly 1e6 m³/h
(far above the 1 m³/h inlet flow of the mass-balance counterexample). -/
def ABad : ℝ := 1e6 / (3600 * (pinE - 1e-5))

/-- Inlet pressure of the negative-`dP_element` counterexample:
`pinN / (pinN + 1) = 1 / exp 1`, so the log-mean pressure is exact. -/
def pinN : ℝ := 1 / (Real.exp 1 - 1)

/-- Demo membrane spec (the end-to-end scenario constants of the spec). -/
def demoSpec : MembraneSpec := ⟨3e-7, 2e-8, 37, 0.3, 8e-4⟩

/-- Membrane spec with a negative pressure drop per element. -/
def specNeg : MembraneSpec := ⟨1 / 3600, 1 / 3600, 1, -1, 0⟩

/-- Membrane spec with zero pressure drop per element, which makes the
log-mean pressure term divide by zero. -/
def specErr : MembraneSpec := ⟨3e-7, 2e-8, 37, 0, 8e-4⟩

end

/-! ### Basic facts about the embedded helpers -/

theorem two_le_exp_one : (2 : ℝ) ≤ Real.exp 1 := by
  have h := Real.add_one_le_exp (1 : ℝ)
  linarith

theorem floor5_ge (x : ℝ) : 1e-5 ≤ floor5 x := by
  unfold floor5
  split_ifs with h
  · norm_num
  · exact not_lt.mp h

theorem floor5_pos (x : ℝ) : 0 < floor5 x :=
  lt_of_lt_of_le (by norm_num) (floor5_ge x)

theorem floor5_idem (x : ℝ) : floor5 (floor5 x) = floor5 x := by
  unfold floor5
  split_ifs <;> rfl

theorem pyLog_ok {x : ℝ} (h : 0 < x) : pyLog x = .ok (Real.log x) := by
  unfold pyLog
  rw [if_neg (not_le.mpr h)]

theorem pyDiv_ok {a b : ℝ} (h : b ≠ 0) : pyDiv a b = .ok (a / b) := by
  unfold pyDiv
  rw [if_neg h]

theorem pyLog_error {x : ℝ} {e : PyError} (h : pyLog x = .error e) :
    e = .mathDomainError := by
  unfold pyLog at h
  split at h
  · simp only [Except.error.injEq] at h
    exact h.symm
  · exact Except.noConfusion h

theorem pyDiv_error {a b : ℝ} {e : PyError} (h : pyDiv a b = .error e) :
    e = .zeroDivisionError := by
  unfold pyDiv at h
  split at h
  · simp only [Except.error.injEq] at h
    exact h.symm
  · exact Except.noConfusion h

/-! ### Loop unfolding lemmas -/

theorem calcLoop_zero (qf cf pin area A B osm : ℝ) (st : ℝ × ℝ × ℝ) :
    calcLoop qf cf pin area A B osm 0 st = .ok st := rfl

theorem calcLoop_step (qf cf pin area A B osm : ℝ) (n : ℕ)
    (a b p0 a' b' p0' : ℝ)
    (h : calcPass qf cf pin area A B osm a b p0 = .ok (a', b', p0')) :
    calcLoop qf cf pin area A B osm (n + 1) (a, b, p0)
      = calcLoop qf cf pin area A B osm n (a', b', p0') := by
  show (match calcPass qf cf pin area A B osm a b p0 with
    | Except.error e => (Except.error e : Except PyError (ℝ × ℝ × ℝ))
    | Except.ok st' => calcLoop qf cf pin area A B osm n st') = _
  rw [h]

theorem calcLoop_fix (qf cf pin area A B osm : ℝ) (a b p0 : ℝ)
    (h : calcPass qf cf pin area A B osm a b p0 = .ok (a, b, p0)) :
    ∀ n, calcLoop qf cf pin area A B osm n (a, b, p0) = .ok (a, b, p0) := by
  intro n
  induction n with
  | zero => rfl
  | succ k ih => rw [calcLoop_step qf cf pin area A B osm k a b p0 a b p0 h, ih]

theorem calcLoop_error_step (qf cf pin area A B osm : ℝ) (n : ℕ)
    (a b p0 : ℝ) (e : PyError)
    (h : calcPass qf cf pin area A B osm a b p0 = .error e) :
    calcLoop qf cf pin area A B osm (n + 1) (a, b, p0) = .error e := by
  show (match calcPass qf cf pin area A B osm a b p0 with
    | Except.error e => (Except.error e : Except PyError (ℝ × ℝ × ℝ))
    | Except.ok st' => calcLoop qf cf pin area A B osm n st') = _
  rw [h]

theorem floor5_of_not_lt {x : ℝ} (h : ¬ x < 1e-5) : floor5 x = x := if_neg h

/-- Generic evaluation of one pass in the "stable concentrate" scenarios:
the in-loop concentrate concentration guess equals the inlet concentration,
so the concentration log-mean branch is skipped, and the pressure log is
known exactly. -/
theorem calcPass_eval (qf cf pin area A B osm a b p0 P X L Q C : ℝ)
    (hP : floor5 p0 = P)
    (hCc : (if qf - a > 1e-12 then (qf * cf - a * b) / (qf - a) else cf) = cf)
    (hcf : ¬ cf < 1e-5)
    (hX : pin / P = X) (hXpos : 0 < X) (hL : Real.log X = L) (hL0 : L ≠ 0)
    (hnd : ¬ ((pin - P) / L - osm * cf < 0))
    (hQ : A * 3600 * ((pin - P) / L - osm * cf) * area = Q)
    (hQ12 : Q > 1e-12)
    (hC : B * 3600 * cf * area / Q = C) :
    calcPass qf cf pin area A B osm a b p0 = .ok (Q, C, P) := by
  have hcf5 : floor5 cf = cf := floor5_of_not_lt hcf
  have hno : ¬ ((0 : ℝ) > 1e-10) := by norm_num
  simp only [calcPass, hP, hX, pyLog_ok hXpos, hL, pyDiv_ok hL0, hCc, hcf5,
    sub_self, abs_zero, if_neg hno, if_neg hnd]
  rw [hQ, if_pos hQ12, hC]

/-! ### The exp-1 based concrete inputs -/

theorem exp_one_sub_one_pos : 0 < Real.exp 1 - 1 := by
  have h := two_le_exp_one
  linarith

theorem pinE_sub_pos : 0 < pinE - 1e-5 := by
  have h := two_le_exp_one
  unfold pinE
  linarith

theorem pinE_div : pinE / 1e-5 = Real.exp 1 := by
  unfold pinE
  rw [mul_div_assoc]
  norm_num

theorem pinN_pos : 0 < pinN := div_pos one_pos exp_one_sub_one_pos

theorem pinN_div : pinN / (pinN + 1) = (Real.exp 1)⁻¹ := by
  have he : Real.exp 1 - 1 ≠ 0 := ne_of_gt exp_one_sub_one_pos
  have he0 : Real.exp 1 ≠ 0 := Real.exp_ne_zero 1
  unfold pinN
  field_simp

/-- One pass of the mass-conserving fixed-point run: inlet 1e6 m³/h at
50 mg/L, the seed (1, 50) is a fixed point. -/
theorem calcPass_good (p0 : ℝ) (hp : floor5 p0 = 1e-5) :
    calcPass 1e6 50 pinE 1 AE BE 0 1 50 p0 = .ok (1, 50, 1e-5) := by
  have hd : pinE - 1e-5 ≠ 0 := ne_of_gt pinE_sub_pos
  refine calcPass_eval 1e6 50 pinE 1 AE BE 0 1 50 p0 1e-5 (Real.exp 1) 1 1 50
    hp (by norm_num) (by norm_num) pinE_div (Real.exp_pos 1) (Real.log_exp 1)
    one_ne_zero ?_ ?_ (by norm_num) ?_
  · rw [div_one, zero_mul, sub_zero]
    exact not_lt.mpr (le_of_lt pinE_sub_pos)
  · rw [div_one, zero_mul, sub_zero]
    unfold AE
    field_simp
  · unfold BE
    norm_num

/-- One pass of the mass-balance-violating run: inlet 1 m³/h at 50 mg/L,
the permeate flow guess jumps to 1e6 m³/h and stays there. -/
theorem calcPass_bad (a b p0 : ℝ) (ha : ¬ ((1 : ℝ) - a > 1e-12))
    (hp : floor5 p0 = 1e-5) :
    calcPass 1 50 pinE 1 ABad 0 0 a b p0 = .ok (1e6, 0, 1e-5) := by
  have hd : pinE - 1e-5 ≠ 0 := ne_of_gt pinE_sub_pos
  refine calcPass_eval 1 50 pinE 1 ABad 0 0 a b p0 1e-5 (Real.exp 1) 1 1e6 0
    hp (if_neg ha) (by norm_num) pinE_div (Real.exp_pos 1) (Real.log_exp 1)
    one_ne_zero ?_ ?_ (by norm_num) ?_
  · rw [div_one, zero_mul, sub_zero]
    exact not_lt.mpr (le_of_lt pinE_sub_pos)
  · rw [div_one, zero_mul, sub_zero]
    unfold ABad
    field_simp
    ring
  · norm_num

/-- One pass of the negative-pressure-drop run: the seed (1, 50) is again a
fixed point, with outlet pressure approximation `pinN + 1`. -/
theorem calcPass_neg (p0 : ℝ) (hp : floor5 p0 = pinN + 1) :
    calcPass 1e6 50 pinN 1 (1 / 3600) (1 / 3600) 0 1 50 p0
      = .ok (1, 50, pinN + 1) := by
  refine calcPass_eval 1e6 50 pinN 1 (1 / 3600) (1 / 3600) 0 1 50 p0
    (pinN + 1) (Real.exp 1)⁻¹ (-1) 1 50 hp (by norm_num) (by norm_num)
    pinN_div (inv_pos.mpr (Real.exp_pos 1))
    (by rw [Real.log_inv, Real.log_exp]) (by norm_num) ?_ ?_ (by norm_num) ?_
  · have h : (pinN - (pinN + 1)) / (-1) - 0 * 50 = 1 := by ring
    rw [h]
    norm_num
  · have h : (pinN - (pinN + 1)) / (-1) - 0 * 50 = 1 := by ring
    rw [h]
    norm_num
  · norm_num

theorem floor5_max_self : floor5 (max (pinE - pinE) 0) = 1e-5 := by
  rw [sub_self, max_self]
  unfold floor5
  norm_num

theorem floor5_eps : floor5 (1e-5 : ℝ) = 1e-5 := by
  unfold floor5
  norm_num

theorem max_pinN : max (pinN - (-1)) 0 = pinN + 1 := by
  have h := pinN_pos
  rw [sub_neg_eq_add]
  exact max_eq_left (by linarith)

theorem floor5_pinN : floor5 (pinN + 1) = pinN + 1 := by
  have h := pinN_pos
  exact floor5_of_not_lt (by norm_num at h ⊢; linarith)

theorem calcLoop_good_eval :
    calcLoop 1e6 50 pinE 1 AE BE 0 5 (1, 50, max (pinE - pinE) 0)
      = .ok (1, 50, 1e-5) := by
  have p1 := calcPass_good _ floor5_max_self
  have p2 := calcPass_good _ floor5_eps
  rw [show (5 : ℕ) = 4 + 1 from rfl,
    calcLoop_step 1e6 50 pinE 1 AE BE 0 4 1 50 _ 1 50 1e-5 p1]
  exact calcLoop_fix 1e6 50 pinE 1 AE BE 0 1 50 1e-5 p2 4

theorem calcLoop_bad_eval :
    calcLoop 1 50 pinE 1 ABad 0 0 5 (1, 50, max (pinE - pinE) 0)
      = .ok (1e6, 0, 1e-5) := by
  have p1 := calcPass_bad 1 50 _ (by norm_num) floor5_max_self
  have p2 := calcPass_bad 1e6 0 _ (by norm_num) floor5_eps
  rw [show (5 : ℕ) = 4 + 1 from rfl,
    calcLoop_step 1 50 pinE 1 ABad 0 0 4 1 50 _ 1e6 0 1e-5 p1]
  exact calcLoop_fix 1 50 pinE 1 ABad 0 0 1e6 0 1e-5 p2 4

theorem calcLoop_neg_eval :
    calcLoop 1e6 50 pinN 1 (1 / 3600) (1 / 3600) 0 5
      (1, 50, max (pinN - (-1)) 0) = .ok (1, 50, pinN + 1) := by
  have h1 : floor5 (max (pinN - (-1)) 0) = pinN + 1 := by
    rw [max_pinN]
    exact floor5_pinN
  have p1 := calcPass_neg _ h1
  have p2 := calcPass_neg _ floor5_pinN
  rw [show (5 : ℕ) = 4 + 1 from rfl,
    calcLoop_step 1e6 50 pinN 1 (1 / 3600) (1 / 3600) 0 4 1 50 _ 1 50
      (pinN + 1) p1]
  exact calcLoop_fix 1e6 50 pinN 1 (1 / 3600) (1 / 3600) 0 1 50 (pinN + 1) p2 4

/-- Full evaluation of the mass-conserving element run. -/
theorem calc_good_eval :
    calc_element_logmean 1e6 50 pinE 1 AE BE pinE 0
      = .ok ⟨1, 50, 1e6 - 1, 50, 0⟩ := by
  unfold calc_element_logmean
  rw [calcLoop_good_eval]
  have hmax : max (pinE - pinE) 0 = 0 := by rw [sub_self, max_self]
  norm_num [hmax, ElemOut.mk.injEq]

/-- Full evaluation of the mass-balance-violating element run. -/
theorem calc_bad_eval :
    calc_element_logmean 1 50 pinE 1 ABad 0 pinE 0
      = .ok ⟨1e6, 0, 1 - 1e6, 50, 0⟩ := by
  unfold calc_element_logmean
  rw [calcLoop_bad_eval]
  have hmax : max (pinE - pinE) 0 = 0 := by rw [sub_self, max_self]
  norm_num [hmax, ElemOut.mk.injEq]

/-- Full evaluation of the negative-pressure-drop element run. -/
theorem calc_neg_eval :
    calc_element_logmean 1e6 50 pinN 1 (1 / 3600) (1 / 3600) (-1) 0
      = .ok ⟨1, 50, 1e6 - 1, 50, pinN + 1⟩ := by
  unfold calc_element_logmean
  rw [calcLoop_neg_eval]
  have hge : (0 : ℝ) ≤ pinN + 1 := by
    have h := pinN_pos
    linarith
  norm_num [max_pinN, ElemOut.mk.injEq, hge]

/-- When the inlet pressure equals the floored outlet approximation (for
example when `dP_element = 0`), the log-mean pressure divides by
`log 1 = 0` and the pass raises `ZeroDivisionError`. -/
theorem calcPass_zero_div (qf cf pin area A B osm a b p0 : ℝ)
    (hpin : 0 < pin) (heq : pin = floor5 p0) :
    calcPass qf cf pin area A B osm a b p0 = .error .zeroDivisionError := by
  simp only [calcPass, ← heq, div_self (ne_of_gt hpin), pyLog_ok one_pos,
    Real.log_one]
  simp [pyDiv]

/-- Element-level zero division: the first pass already raises, and the
exception propagates out of `calc_element_logmean`. -/
theorem calc_element_zero_div (qf cf pin area A B dP osm : ℝ)
    (hpin : 0 < pin) (heq : pin = floor5 (max (pin - dP) 0)) :
    calc_element_logmean qf cf pin area A B dP osm
      = .error .zeroDivisionError := by
  unfold calc_element_logmean
  rw [show (5 : ℕ) = 4 + 1 from rfl,
    calcLoop_error_step qf cf pin area A B osm 4 1 50 (max (pin - dP) 0)
      .zeroDivisionError
      (calcPass_zero_div qf cf pin area A B osm 1 50 (max (pin - dP) 0)
        hpin heq)]

/-- Under positive inlet pressure and concentration, and inlet pressure
different from the floored outlet approximation, a pass never raises and
keeps the floored pressure in its state. -/
theorem calcPass_ok_of (qf cf pin area A B osm a b p0 : ℝ)
    (hpin : 0 < pin) (hcf : 0 < cf) (hne : pin ≠ floor5 p0) :
    ∃ a' b', calcPass qf cf pin area A B osm a b p0
      = .ok (a', b', floor5 p0) := by
  have hPpos : 0 < floor5 p0 := floor5_pos p0
  have hx : 0 < pin / floor5 p0 := div_pos hpin hPpos
  have hlog : Real.log (pin / floor5 p0) ≠ 0 := by
    intro h0
    rcases Real.log_eq_zero.mp h0 with h | h | h
    · exact absurd h (ne_of_gt hx)
    · exact hne ((div_eq_one_iff_eq (ne_of_gt hPpos)).mp h)
    · rw [h] at hx
      norm_num at hx
  simp only [calcPass, pyLog_ok hx, pyDiv_ok hlog]
  by_cases hbr : |cf - floor5 (if qf - a > 1e-12 then
      (qf * cf - a * b) / (qf - a) else cf)| > 1e-10
  · have hc2pos : 0 < floor5 (if qf - a > 1e-12 then
        (qf * cf - a * b) / (qf - a) else cf) := floor5_pos _
    have hcx : 0 < cf / floor5 (if qf - a > 1e-12 then
        (qf * cf - a * b) / (qf - a) else cf) := div_pos hcf hc2pos
    have hclog : Real.log (cf / floor5 (if qf - a > 1e-12 then
        (qf * cf - a * b) / (qf - a) else cf)) ≠ 0 := by
      intro h0
      rcases Real.log_eq_zero.mp h0 with h | h | h
      · exact absurd h (ne_of_gt hcx)
      · have heq2 := (div_eq_one_iff_eq (ne_of_gt hc2pos)).mp h
        rw [← heq2, sub_self, abs_zero] at hbr
        norm_num at hbr
      · rw [h] at hcx
        norm_num at hcx
    rw [if_pos hbr]
    simp only [pyLog_ok hcx, pyDiv_ok hclog]
    exact ⟨_, _, rfl⟩
  · rw [if_neg hbr]
    exact ⟨_, _, rfl⟩

/-- The loop keeps succeeding pass after pass: the floored pressure
component is invariant, so the no-raise precondition is preserved. -/
theorem calcLoop_ok_of (qf cf pin area A B osm : ℝ)
    (hpin : 0 < pin) (hcf : 0 < cf) :
    ∀ (n : ℕ) (a b p0 : ℝ), pin ≠ floor5 p0 →
      ∃ a' b' p0', calcLoop qf cf pin area A B osm n (a, b, p0)
        = .ok (a', b', p0') ∧ floor5 p0' = floor5 p0 := by
  intro n
  induction n with
  | zero =>
      intro a b p0 hne
      exact ⟨a, b, p0, rfl, rfl⟩
  | succ k ih =>
      intro a b p0 hne
      obtain ⟨a', b', hp⟩ := calcPass_ok_of qf cf pin area A B osm a b p0
        hpin hcf hne
      have hne' : pin ≠ floor5 (floor5 p0) := by
        rw [floor5_idem]
        exact hne
      obtain ⟨a'', b'', p0'', hloop, hfl⟩ := ih a' b' (floor5 p0) hne'
      refine ⟨a'', b'', p0'', ?_, ?_⟩
      · rw [calcLoop_step qf cf pin area A B osm k a b p0 a' b' (floor5 p0) hp]
        exact hloop
      · rw [hfl, floor5_idem]

/-- Any exception raised inside a pass is a math-domain or zero-division
error (the only raise sites are `math.log` and the log-mean divisions). -/
theorem calcPass_error_classify (qf cf pin area A B osm a b p0 : ℝ)
    {e : PyError} (h : calcPass qf cf pin area A B osm a b p0 = .error e) :
    e = .mathDomainError ∨ e = .zeroDivisionError := by
  simp only [calcPass] at h
  cases h1 : pyLog (pin / floor5 p0) with
  | error e1 =>
      simp only [h1, Except.error.injEq] at h
      exact Or.inl (h ▸ pyLog_error h1)
  | ok lp =>
      simp only [h1] at h
      cases h2 : pyDiv (pin - floor5 p0) lp with
      | error e2 =>
          simp only [h2, Except.error.injEq] at h
          exact Or.inr (h ▸ pyDiv_error h2)
      | ok p_avg =>
          simp only [h2] at h
          by_cases hbr : |cf - floor5 (if qf - a > 1e-12 then
              (qf * cf - a * b) / (qf - a) else cf)| > 1e-10
          · simp only [if_pos hbr] at h
            cases h3 : pyLog (cf / floor5 (if qf - a > 1e-12 then
                (qf * cf - a * b) / (qf - a) else cf)) with
            | error e3 =>
                simp only [h3, Except.error.injEq] at h
                exact Or.inl (h ▸ pyLog_error h3)
            | ok lc =>
                simp only [h3] at h
                cases h4 : pyDiv (cf - floor5 (if qf - a > 1e-12 then
                    (qf * cf - a * b) / (qf - a) else cf)) lc with
                | error e4 =>
                    simp only [h4, Except.error.injEq] at h
                    exact Or.inr (h ▸ pyDiv_error h4)
                | ok cfa =>
                    simp only [h4] at h
                    exact Except.noConfusion h
          · simp only [if_neg hbr] at h
            exact Except.noConfusion h

theorem calcLoop_error_classify (qf cf pin area A B osm : ℝ) :
    ∀ (n : ℕ) (st : ℝ × ℝ × ℝ) (e : PyError),
      calcLoop qf cf pin area A B osm n st = .error e →
      e = .mathDomainError ∨ e = .zeroDivisionError := by
  intro n
  induction n with
  | zero =>
      intro st e h
      exact Except.noConfusion h
  | succ k ih =>
      intro st e h
      obtain ⟨a, b, p0⟩ := st
      cases h1 : calcPass qf cf pin area A B osm a b p0 with
      | error e1 =>
          rw [calcLoop_error_step qf cf pin area A B osm k a b p0 e1 h1] at h
          simp only [Except.error.injEq] at h
          exact h ▸ calcPass_error_classify qf cf pin area A B osm a b p0 h1
      | ok st' =>
          obtain ⟨a', b', p0'⟩ := st'
          rw [calcLoop_step qf cf pin area A B osm k a b p0 a' b' p0' h1] at h
          exact ih (a', b', p0') e h

theorem calc_element_error_classify (qf cf pin area A B dP osm : ℝ)
    {e : PyError} (h : calc_element_logmean qf cf pin area A B dP osm
      = .error e) : e = .mathDomainError ∨ e = .zeroDivisionError := by
  unfold calc_element_logmean at h
  cases h1 : calcLoop qf cf pin area A B osm 5 (1, 50, max (pin - dP) 0) with
  | error e1 =>
      simp only [h1, Except.error.injEq] at h
      exact h ▸ calcLoop_error_classify qf cf pin area A B osm 5 _ e1 h1
  | ok st =>
      simp only [h1] at h
      exact Except.noConfusion h

theorem simLoop_error_classify (area A B dP osm : ℝ) :
    ∀ (n : ℕ) (st : ℝ × ℝ × ℝ) (tot : ℝ × ℝ) (e : PyError),
      simLoop area A B dP osm n st tot = .error e →
      e = .mathDomainError ∨ e = .zeroDivisionError := by
  intro n
  induction n with
  | zero =>
      intro st tot e h
      exact Except.noConfusion h
  | succ k ih =>
      intro st tot e h
      cases h1 : calc_element_logmean st.1 st.2.1 st.2.2 area A B dP osm with
      | error e1 =>
          simp only [simLoop, h1, Except.error.injEq] at h
          exact h ▸ calc_element_error_classify st.1 st.2.1 st.2.2 area A B
            dP osm h1
      | ok eo =>
          simp only [simLoop, h1] at h
          exact ih _ _ e h

/-- Whatever the loop state converged to, the returned outlet pressure is
recomputed as `max(pin - dP_element, 0)` (line 79), without the 1e-5
floor. -/
theorem calc_element_ok_p_out (qf cf pin area A B dP osm : ℝ) (out : ElemOut)
    (h : calc_element_logmean qf cf pin area A B dP osm = .ok out) :
    out.p_out = max (pin - dP) 0 := by
  unfold calc_element_logmean at h
  cases h1 : calcLoop qf cf pin area A B osm 5 (1, 50, max (pin - dP) 0) with
  | error e =>
      simp only [h1] at h
      exact Except.noConfusion h
  | ok st =>
      simp only [h1, Except.ok.injEq] at h
      rw [← h]

/-- When the recomputed concentrate flow clears the 1e-12 guard, the final
mass-balance assembly of lines 68-77 closes the solute balance exactly. -/
theorem calc_element_mass_balance (qf cf pin area A B dP osm : ℝ)
    (out : ElemOut)
    (h : calc_element_logmean qf cf pin area A B dP osm = .ok out)
    (hq : out.Qc > 1e-12) :
    out.Qp * out.Cp + out.Qc * out.Cc = qf * cf := by
  unfold calc_element_logmean at h
  cases h1 : calcLoop qf cf pin area A B osm 5 (1, 50, max (pin - dP) 0) with
  | error e =>
      simp only [h1] at h
      exact Except.noConfusion h
  | ok st =>
      simp only [h1, Except.ok.injEq] at h
      rw [← h] at hq ⊢
      simp only at hq ⊢
      rw [if_pos hq]
      have hne : qf - st.1 ≠ 0 := by
        have : (0 : ℝ) < qf - st.1 := lt_trans (by norm_num) hq
        exact ne_of_gt this
      field_simp

/-- A pass can succeed only when the inlet pressure is positive: otherwise
the pressure `math.log` argument is non-positive and it raises. -/
theorem calcPass_ok_pin_pos (qf cf pin area A B osm a b p0 : ℝ)
    (st' : ℝ × ℝ × ℝ)
    (h : calcPass qf cf pin area A B osm a b p0 = .ok st') : 0 < pin := by
  by_contra hneg
  push_neg at hneg
  have hx : pin / floor5 p0 ≤ 0 :=
    div_nonpos_iff.mpr (Or.inr ⟨hneg, (floor5_pos p0).le⟩)
  have hlog : pyLog (pin / floor5 p0) = .error .mathDomainError := by
    unfold pyLog
    rw [if_pos hx]
  simp only [calcPass, hlog] at h
  exact Except.noConfusion h

/-- A solved element always had positive inlet pressure. -/
theorem calc_element_ok_pin_pos (qf cf pin area A B dP osm : ℝ)
    (out : ElemOut)
    (h : calc_element_logmean qf cf pin area A B dP osm = .ok out) :
    0 < pin := by
  unfold calc_element_logmean at h
  cases h1 : calcLoop qf cf pin area A B osm 5 (1, 50, max (pin - dP) 0) with
  | error e =>
      simp only [h1] at h
      exact Except.noConfusion h
  | ok st =>
      cases h2 : calcPass qf cf pin area A B osm 1 50 (max (pin - dP) 0) with
      | error e =>
          rw [show (5 : ℕ) = 4 + 1 from rfl,
            calcLoop_error_step qf cf pin area A B osm 4 1 50 _ e h2] at h1
          exact Except.noConfusion h1
      | ok st2 =>
          exact calcPass_ok_pin_pos qf cf pin area A B osm 1 50 _ st2 h2

/-- Pressure evolves independently of the stream's flow/concentration: the
final pressure after `n` elements is the `n`-fold application of
`p ↦ max(p - dP_element, 0)` to the inlet pressure. -/
theorem simLoop_ok_pressure (area A B dP osm : ℝ) :
    ∀ (n : ℕ) (q c p : ℝ) (tot : ℝ × ℝ) (st' : (ℝ × ℝ × ℝ) × (ℝ × ℝ)),
      simLoop area A B dP osm n (q, c, p) tot = .ok st' →
      st'.1.2.2 = (fun x => max (x - dP) 0)^[n] p := by
  intro n
  induction n with
  | zero =>
      intro q c p tot st' h
      simp only [simLoop, Except.ok.injEq] at h
      rw [← h, Function.iterate_zero_apply]
  | succ k ih =>
      intro q c p tot st' h
      cases h1 : calc_element_logmean q c p area A B dP osm with
      | error e =>
          simp only [simLoop, h1] at h
          exact Except.noConfusion h
      | ok eo =>
          simp only [simLoop, h1] at h
          have hpe : eo.p_out = max (p - dP) 0 :=
            calc_element_ok_p_out q c p area A B dP osm eo h1
          rw [ih eo.Qc eo.Cc eo.p_out _ _ h, hpe]
          exact (Function.iterate_succ_apply (fun x => max (x - dP) 0) k p).symm

/-- With a non-negative per-element pressure drop, the chain's final
pressure never exceeds the inlet pressure. -/
theorem simLoop_ok_pressure_le (area A B dP osm : ℝ) (hdP : 0 ≤ dP) :
    ∀ (n : ℕ) (q c p : ℝ) (tot : ℝ × ℝ) (st' : (ℝ × ℝ × ℝ) × (ℝ × ℝ)),
      simLoop area A B dP osm n (q, c, p) tot = .ok st' →
      st'.1.2.2 ≤ p := by
  intro n
  induction n with
  | zero =>
      intro q c p tot st' h
      simp only [simLoop, Except.ok.injEq] at h
      rw [← h]
  | succ k ih =>
      intro q c p tot st' h
      cases h1 : calc_element_logmean q c p area A B dP osm with
      | error e =>
          simp only [simLoop, h1] at h
          exact Except.noConfusion h
      | ok eo =>
          simp only [simLoop, h1] at h
          have hp := calc_element_ok_pin_pos q c p area A B dP osm eo h1
          have hpe : eo.p_out = max (p - dP) 0 :=
            calc_element_ok_p_out q c p area A B dP osm eo h1
          have hle : eo.p_out ≤ p := by
            rw [hpe]
            exact max_le (by linarith) hp.le
          exact le_trans (ih eo.Qc eo.Cc eo.p_out _ _ h) hle

/-! ### Pass-count lemmas -/

theorem calcLoopCount_le (qf cf pin area A B osm : ℝ) :
    ∀ (n : ℕ) (st : ℝ × ℝ × ℝ),
      calcLoopCount qf cf pin area A B osm n st ≤ n := by
  intro n
  induction n with
  | zero =>
      intro st
      exact le_refl 0
  | succ k ih =>
      intro st
      cases h1 : calcPass qf cf pin area A B osm st.1 st.2.1 st.2.2 with
      | error e =>
          simp only [calcLoopCount, h1]
          omega
      | ok st' =>
          simp only [calcLoopCount, h1]
          have := ih st'
          omega

theorem calcLoopCount_ok (qf cf pin area A B osm : ℝ) :
    ∀ (n : ℕ) (st st' : ℝ × ℝ × ℝ),
      calcLoop qf cf pin area A B osm n st = .ok st' →
      calcLoopCount qf cf pin area A B osm n st = n := by
  intro n
  induction n with
  | zero =>
      intro st st' _
      rfl
  | succ k ih =>
      intro st st' h
      obtain ⟨a, b, p0⟩ := st
      cases h1 : calcPass qf cf pin area A B osm a b p0 with
      | error e =>
          rw [calcLoop_error_step qf cf pin area A B osm k a b p0 e h1] at h
          exact Except.noConfusion h
      | ok st2 =>
          obtain ⟨a2, b2, p2⟩ := st2
          rw [calcLoop_step qf cf pin area A B osm k a b p0 a2 b2 p2 h1] at h
          simp only [calcLoopCount, h1]
          rw [ih (a2, b2, p2) st' h]
          omega

/-- A solver call that returns a result executed exactly 5 passes. -/
theorem elementPassCount_ok (qf cf pin area A B dP osm : ℝ) (out : ElemOut)
    (h : calc_element_logmean qf cf pin area A B dP osm = .ok out) :
    elementPassCount qf cf pin area A B dP osm = 5 := by
  unfold calc_element_logmean at h
  cases h1 : calcLoop qf cf pin area A B osm 5 (1, 50, max (pin - dP) 0) with
  | error e =>
      simp only [h1] at h
      exact Except.noConfusion h
  | ok st =>
      exact calcLoopCount_ok qf cf pin area A B osm 5 _ st h1

theorem elementPassCount_le (qf cf pin area A B dP osm : ℝ) :
    elementPassCount qf cf pin area A B dP osm ≤ 5 :=
  calcLoopCount_le qf cf pin area A B osm 5 _

theorem simPassCount_le (area A B dP osm : ℝ) :
    ∀ (n : ℕ) (st : ℝ × ℝ × ℝ),
      simPassCount area A B dP osm n st ≤ 5 * n := by
  intro n
  induction n with
  | zero =>
      intro st
      exact le_refl 0
  | succ k ih =>
      intro st
      have h5 := elementPassCount_le st.1 st.2.1 st.2.2 area A B dP osm
      cases h1 : calc_element_logmean st.1 st.2.1 st.2.2 area A B dP osm with
      | error e =>
          simp only [simPassCount, h1]
          omega
      | ok eo =>
          simp only [simPassCount, h1]
          have := ih (eo.Qc, eo.Cc, eo.p_out)
          omega

theorem simPassCount_ok (area A B dP osm : ℝ) :
    ∀ (n : ℕ) (st : ℝ × ℝ × ℝ) (tot : ℝ × ℝ)
      (out : (ℝ × ℝ × ℝ) × (ℝ × ℝ)),
      simLoop area A B dP osm n st tot = .ok out →
      simPassCount area A B dP osm n st = 5 * n := by
  intro n
  induction n with
  | zero =>
      intro st tot out _
      rfl
  | succ k ih =>
      intro st tot out h
      cases h1 : calc_element_logmean st.1 st.2.1 st.2.2 area A B dP osm with
      | error e =>
          simp only [simLoop, h1] at h
          exact Except.noConfusion h
      | ok eo =>
          simp only [simLoop, h1] at h
          have h5 := elementPassCount_ok st.1 st.2.1 st.2.2 area A B dP osm eo h1
          simp only [simPassCount, h1, h5]
          have := ih (eo.Qc, eo.Cc, eo.p_out) _ out h
          omega

/-- Inversion of a successful `simulate_ro_logmean` call: the product was
found, the element loop succeeded, and the result record is assembled from
the loop's final stream and totals. -/
theorem simulate_ok_inv (f c p t : ℝ) (prod : String) (n : ℕ)
    (data : List (String × MembraneSpec)) (r : SimResult)
    (h : simulate_ro_logmean f c p t prod n data = .ok r) :
    ∃ spec st tot, data.lookup prod = some spec ∧
      simLoop spec.area_m2 (spec.A_value * tcf_code t)
        (spec.B_value * tcf_code t) spec.default_dP_element
        spec.default_osm_coef n (f, c, p) (0, 0) = .ok (st, tot) ∧
      r = ⟨prod, f, c, t, n, tot.1,
           if f > 1e-12 then tot.1 / f * 100 else 0,
           if tot.1 > 1e-12 then tot.2 / tot.1 else 0,
           st.1, st.2.1, st.2.2⟩ := by
  unfold simulate_ro_logmean at h
  cases hl : data.lookup prod with
  | none =>
      simp only [hl] at h
      exact Except.noConfusion h
  | some spec =>
      simp only [hl] at h
      cases hs : simLoop spec.area_m2 (spec.A_value * tcf_code t)
          (spec.B_value * tcf_code t) spec.default_dP_element
          spec.default_osm_coef n (f, c, p) (0, 0) with
      | error e =>
          simp only [hs] at h
          exact Except.noConfusion h
      | ok out =>
          obtain ⟨st, tot⟩ := out
          simp only [hs, Except.ok.injEq] at h
          exact ⟨spec, st, tot, rfl, hs, h.symm⟩

theorem tcf_code_at_25 : tcf_code 25 = 1 := by
  unfold tcf_code
  norm_num

theorem tcf_code_eq_max (t : ℝ) : tcf_code t = max 0 (1 + 0.03 * (t - 25)) := by
  unfold tcf_code
  rcases lt_or_le (1 + 0.03 * (t - 25)) 0 with h | h
  · rw [if_pos h, max_eq_left h.le]
  · rw [if_neg (not_lt.mpr h), max_eq_right h]

/-- With zero elements the loop body never runs: the feed passes through
unchanged and both totals stay zero. -/
theorem simulate_zero_elements (f c p t : ℝ) (prod : String)
    (spec : MembraneSpec) (data : List (String × MembraneSpec))
    (h : data.lookup prod = some spec) :
    simulate_ro_logmean f c p t prod 0 data
      = .ok ⟨prod, f, c, t, 0, 0, 0, 0, f, c, p⟩ := by
  have h2 : ¬ ((0 : ℝ) > 1e-12) := by norm_num
  unfold simulate_ro_logmean
  simp only [h, simLoop, zero_div, zero_mul, ite_self, if_neg h2]

theorem lookup_M_specNeg :
    ([("M", specNeg)] : List (String × MembraneSpec)).lookup "M"
      = some specNeg := rfl

theorem lookup_M_specErr :
    ([("M", specErr)] : List (String × MembraneSpec)).lookup "M"
      = some specErr := rfl

theorem lookup_M_demoSpec :
    ([("M", demoSpec)] : List (String × MembraneSpec)).lookup "M"
      = some demoSpec := rfl

theorem simLoop_zero (area A B dP osm : ℝ) (st : ℝ × ℝ × ℝ) (tot : ℝ × ℝ) :
    simLoop area A B dP osm 0 st tot = .ok (st, tot) := rfl

theorem simLoop_step_ok (area A B dP osm : ℝ) (n : ℕ) (q c p t1 t2 : ℝ)
    (eo : ElemOut)
    (h : calc_element_logmean q c p area A B dP osm = .ok eo) :
    simLoop area A B dP osm (n + 1) (q, c, p) (t1, t2)
      = simLoop area A B dP osm n (eo.Qc, eo.Cc, eo.p_out)
          (t1 + eo.Qp, t2 + eo.Qp * eo.Cp) := by
  show (match calc_element_logmean q c p area A B dP osm with
    | Except.error e =>
        (Except.error e : Except PyError ((ℝ × ℝ × ℝ) × (ℝ × ℝ)))
    | Except.ok eo =>
        simLoop area A B dP osm n (eo.Qc, eo.Cc, eo.p_out)
          (t1 + eo.Qp, t2 + eo.Qp * eo.Cp)) = _
  rw [h]

/-- One full simulate call over the negative-pressure-drop spec: the final
pressure rises from `pinN` to `pinN + 1`. -/
theorem simulate_neg_eval :
    simulate_ro_logmean 1e6 50 pinN 25 "M" 1 [("M", specNeg)]
      = .ok ⟨"M", 1e6, 50, 25, 1, 1, 1 / 10000, 50, 1e6 - 1, 50, pinN + 1⟩ := by
  unfold simulate_ro_logmean
  simp only [lookup_M_specNeg]
  simp only [specNeg, tcf_code_at_25, mul_one]
  rw [show (1 : ℕ) = 0 + 1 from rfl,
    simLoop_step_ok 1 (1 / 3600) (1 / 3600) (-1) 0 0 1e6 50 pinN 0 0 _
      calc_neg_eval,
    simLoop_zero]
  norm_num [SimResult.mk.injEq]

/-- The error input executes a single pass: the first pass of the single
element raises, so only one of the nominal five passes runs. -/
theorem simulatePassCount_err_eval :
    simulatePassCount 30 2000 10 25 "M" 1 [("M", specErr)] = 1 := by
  have hm : max ((10 : ℝ) - 0) 0 = 10 := by
    rw [sub_zero]
    exact max_eq_left (by norm_num)
  have heq : (10 : ℝ) = floor5 (max (10 - 0) 0) := by
    rw [hm]
    unfold floor5
    norm_num
  have hpass : calcPass 30 2000 10 37 3e-7 2e-8 8e-4 1 50 (max (10 - 0) 0)
      = .error .zeroDivisionError :=
    calcPass_zero_div 30 2000 10 37 3e-7 2e-8 8e-4 1 50 _ (by norm_num) heq
  have hcalc : calc_element_logmean 30 2000 10 37 3e-7 2e-8 0 8e-4
      = .error .zeroDivisionError :=
    calc_element_zero_div 30 2000 10 37 3e-7 2e-8 0 8e-4 (by norm_num) heq
  have hcount : elementPassCount 30 2000 10 37 3e-7 2e-8 0 8e-4 = 1 := by
    unfold elementPassCount
    rw [show (5 : ℕ) = 4 + 1 from rfl]
    simp only [calcLoopCount, hpass]
  unfold simulatePassCount
  simp only [lookup_M_specErr]
  simp only [specErr, tcf_code_at_25, mul_one]
  rw [show (1 : ℕ) = 0 + 1 from rfl]
  simp only [simPassCount, hcalc, hcount]

theorem simulate_ok_passCount (f c p t : ℝ) (prod : String) (n : ℕ)
    (data : List (String × MembraneSpec)) (r : SimResult)
    (h : simulate_ro_logmean f c p t prod n data = .ok r) :
    simulatePassCount f c p t prod n data = 5 * n := by
  obtain ⟨spec, st, tot, hl, hs, -⟩ := simulate_ok_inv f c p t prod n data r h
  unfold simulatePassCount
  simp only [hl]
  exact simPassCount_ok _ _ _ _ _ n (f, c, p) (0, 0) (st, tot) hs

theorem simulatePassCount_le (f c p t : ℝ) (prod : String) (n : ℕ)
    (data : List (String × MembraneSpec)) :
    simulatePassCount f c p t prod n data ≤ 5 * n := by
  unfold simulatePassCount
  cases hl : data.lookup prod with
  | none =>
      simp only [hl]
      exact Nat.zero_le _
  | some spec =>
      simp only [hl]
      exact simPassCount_le _ _ _ _ _ n _

theorem simulate_notFound (f c p t : ℝ) (prod : String) (n : ℕ)
    (data : List (String × MembraneSpec)) (h : data.lookup prod = none) :
    simulate_ro_logmean f c p t prod n data
      = .error (.productNotFound prod) := by
  unfold simulate_ro_logmean
  simp only [h]

theorem simulate_notFound_inv (f c p t : ℝ) (prod s : String) (n : ℕ)
    (data : List (String × MembraneSpec))
    (h : simulate_ro_logmean f c p t prod n data
      = .error (.productNotFound s)) :
    data.lookup prod = none ∧ s = prod := by
  unfold simulate_ro_logmean at h
  cases hl : data.lookup prod with
  | none =>
      simp only [hl, Except.error.injEq, PyError.productNotFound.injEq] at h
      exact ⟨rfl, h.symm⟩
  | some spec =>
      simp only [hl] at h
      cases hs : simLoop spec.area_m2 (spec.A_value * tcf_code t)
          (spec.B_value * tcf_code t) spec.default_dP_element
          spec.default_osm_coef n (f, c, p) (0, 0) with
      | error e =>
          simp only [hs, Except.error.injEq] at h
          rcases simLoop_error_classify _ _ _ _ _ n _ _ e hs with he | he <;>
            rw [he] at h <;> exact PyError.noConfusion h
      | ok out =>
          obtain ⟨st, tot⟩ := out
          simp only [hs] at h
          exact Except.noConfusion h

/-- Applying the temperature correction to the registry entry up front and
simulating at the reference temperature gives the same result (up to the
echoed temperature field): the corrected coefficients are computed once
before the loop and reused for every element. -/
theorem simulate_factor (f c p t : ℝ) (prod : String) (spec : MembraneSpec)
    (n : ℕ) (data data2 : List (String × MembraneSpec))
    (h1 : data.lookup prod = some spec)
    (h2 : data2.lookup prod = some ⟨spec.A_value * tcf_code t,
      spec.B_value * tcf_code t, spec.area_m2, spec.default_dP_element,
      spec.default_osm_coef⟩) :
    Except.map (fun r => { r with Temperature_degC := (25 : ℝ) })
        (simulate_ro_logmean f c p t prod n data)
      = simulate_ro_logmean f c p 25 prod n data2 := by
  unfold simulate_ro_logmean
  simp only [h1, h2, tcf_code_at_25, mul_one]
  cases hs : simLoop spec.area_m2 (spec.A_value * tcf_code t)
      (spec.B_value * tcf_code t) spec.default_dP_element
      spec.default_osm_coef n (f, c, p) (0, 0) with
  | error e =>
      simp only [hs, Except.map]
  | ok out =>
      obtain ⟨st, tot⟩ := out
      simp only [hs, Except.map]

/-! ### History store lemmas -/

theorem load_append_one (file : Option (List HistRecord)) (r : SimResult)
    (ts : String) :
    load_calculation_history (append_result_to_csv r ts file)
      = load_calculation_history file ++ [row_of_result ts r] := by
  cases file <;> rfl

theorem load_appendAll_some (batch : List (SimResult × String)) :
    ∀ acc : List HistRecord,
      load_calculation_history (appendAll batch (some acc))
        = acc ++ batch.map (fun x => row_of_result x.2 x.1) := by
  induction batch with
  | nil =>
      intro acc
      simp [appendAll, load_calculation_history]
  | cons hd tl ih =>
      intro acc
      have hstep : appendAll (hd :: tl) (some acc)
          = appendAll tl (some (acc ++ [row_of_result hd.2 hd.1])) := rfl
      rw [hstep, ih (acc ++ [row_of_result hd.2 hd.1])]
      simp

theorem load_appendAll_none (batch : List (SimResult × String)) :
    load_calculation_history (appendAll batch none)
      = batch.map (fun x => row_of_result x.2 x.1) := by
  cases batch with
  | nil => rfl
  | cons hd tl =>
      have hstep : appendAll (hd :: tl) none
          = appendAll tl (some [row_of_result hd.2 hd.1]) := rfl
      rw [hstep, load_appendAll_some tl [row_of_result hd.2 hd.1]]
      simp

/-! ### Claim theorems -/

/-- C1 (amended): the element solver handles the near-zero-flow and
near-equal-concentration degeneracies by substitution/flooring and never
raises, provided the inlet pressure and inlet concentration are positive
and the inlet pressure differs from the floored outlet-pressure
approximation; but when `pin` equals that floored approximation (for
example `dP_element = 0`) the log-mean pressure term divides by zero, so
the original unconditional claim is false. -/
theorem C1_solver_no_raise (qf cf pin area A B dP osm : ℝ)
    (hpin : 0 < pin) (hcf : 0 < cf)
    (hne : pin ≠ floor5 (max (pin - dP) 0)) :
    (calc_element_logmean qf cf pin area A B dP osm).isOk = true := by
  obtain ⟨a', b', p0', hloop, -⟩ := calcLoop_ok_of qf cf pin area A B osm
    hpin hcf 5 1 50 (max (pin - dP) 0) hne
  unfold calc_element_logmean
  rw [hloop]
  rfl

theorem ten_ne_floor : (10 : ℝ) ≠ floor5 (max (10 - 1) 0) := by
  have h1 : max ((10 : ℝ) - 1) 0 = 9 := by
    rw [show (10 : ℝ) - 1 = 9 by norm_num]
    exact max_eq_left (by norm_num)
  rw [h1]
  unfold floor5
  norm_num

/-- C1 witness: a fully in-range call (positive pressure and concentration,
`dP_element = 1`) returns without raising. -/
theorem C1_solver_no_raise_witness :
    0 < (10 : ℝ) ∧ 0 < (2000 : ℝ) ∧
      (10 : ℝ) ≠ floor5 (max (10 - 1) 0) ∧
      (calc_element_logmean 30 2000 10 37 3e-7 2e-8 1 8e-4).isOk = true :=
  ⟨by norm_num, by norm_num, ten_ne_floor,
    C1_solver_no_raise 30 2000 10 37 3e-7 2e-8 1 8e-4 (by norm_num)
      (by norm_num) ten_ne_floor⟩

/-- C1 counterexample: at `dP_element = 0` the log-mean pressure term is
`(pin - pin)/log(pin/pin)` and the division by `log 1 = 0` raises
`ZeroDivisionError` — `calc_element_logmean` does not handle the
near-equal-pressure degeneracy. -/
theorem C1_solver_raises_cex :
    calc_element_logmean 30 2000 10 37 3e-7 2e-8 0 8e-4
      = .error .zeroDivisionError := by
  have hm : max ((10 : ℝ) - 0) 0 = 10 := by
    rw [sub_zero]
    exact max_eq_left (by norm_num)
  have heq : (10 : ℝ) = floor5 (max (10 - 0) 0) := by
    rw [hm]
    unfold floor5
    norm_num
  exact calc_element_zero_div 30 2000 10 37 3e-7 2e-8 0 8e-4 (by norm_num) heq

/-- C2 (amended): whenever the recomputed concentrate flow clears the
1e-12 guard, the returned element streams satisfy the solute balance
`Qp·Cp + Qc·Cc = qf·cf` exactly (not merely within 1e-6 relative); when
the guard fails (permeate flow at least the inlet flow) the concentrate
concentration is substituted by the inlet concentration and the balance
can be violated arbitrarily. -/
theorem C2_mass_closure (qf cf pin area A B dP osm : ℝ) (out : ElemOut)
    (h : calc_element_logmean qf cf pin area A B dP osm = .ok out)
    (hq : out.Qc > 1e-12) :
    out.Qp * out.Cp + out.Qc * out.Cc = qf * cf :=
  calc_element_mass_balance qf cf pin area A B dP osm out h hq

/-- C2 witness: the fixed-point run (inlet 1e6 m³/h at 50 mg/L) solves with
concentrate flow `1e6 - 1` and closes the balance exactly. -/
theorem C2_mass_closure_witness :
    calc_element_logmean 1e6 50 pinE 1 AE BE pinE 0
      = .ok ⟨1, 50, 1e6 - 1, 50, 0⟩ ∧
    (1e6 - 1 : ℝ) > 1e-12 ∧
    (1 : ℝ) * 50 + (1e6 - 1) * 50 = 1e6 * 50 :=
  ⟨calc_good_eval, by norm_num,
    C2_mass_closure 1e6 50 pinE 1 AE BE pinE 0 ⟨1, 50, 1e6 - 1, 50, 0⟩
      calc_good_eval (by norm_num : (1e6 - 1 : ℝ) > 1e-12)⟩

/-- C2 counterexample: with inlet flow 1 m³/h and a large A coefficient the
solver returns permeate flow 1e6 m³/h; the concentrate flow `1 - 1e6` fails
the 1e-12 guard, the concentrate concentration is substituted by the inlet
value, and the mass balance is violated far beyond any 1e-6 relative
tolerance. -/
theorem C2_mass_closure_cex :
    calc_element_logmean 1 50 pinE 1 ABad 0 pinE 0
      = .ok ⟨1e6, 0, 1 - 1e6, 50, 0⟩ ∧
    ¬ (|(1e6 : ℝ) * 0 + (1 - 1e6) * 50 - 1 * 50| ≤ 1e-6 * |(1 : ℝ) * 50|) :=
  ⟨calc_bad_eval, by norm_num⟩

/-- C3: a solved element's outlet pressure is exactly
`max(inlet_pressure - dP_element, 0)` (no 1e-5 floor), and a successful
simulate call's final pressure is the `num_elements`-fold application of
that update to the feed pressure (each element's inlet pressure being the
previous outlet pressure). -/
theorem C3_pressure_chain :
    (∀ (qf cf pin area A B dP osm : ℝ) (out : ElemOut),
        calc_element_logmean qf cf pin area A B dP osm = .ok out →
        out.p_out = max (pin - dP) 0) ∧
    (∀ (f c p t : ℝ) (prod : String) (n : ℕ)
        (data : List (String × MembraneSpec)) (spec : MembraneSpec)
        (r : SimResult),
        data.lookup prod = some spec →
        simulate_ro_logmean f c p t prod n data = .ok r →
        r.FinalPressure
          = (fun x => max (x - spec.default_dP_element) 0)^[n] p) := by
  constructor
  · intro qf cf pin area A B dP osm out h
    exact calc_element_ok_p_out qf cf pin area A B dP osm out h
  · intro f c p t prod n data spec r hl h
    obtain ⟨spec', st, tot, hl', hs, hr⟩ := simulate_ok_inv f c p t prod n
      data r h
    rw [hl] at hl'
    injection hl' with hspec
    subst hspec
    have hp := simLoop_ok_pressure spec.area_m2 (spec.A_value * tcf_code t)
      (spec.B_value * tcf_code t) spec.default_dP_element
      spec.default_osm_coef n f c p (0, 0) (st, tot) hs
    rw [hr]
    exact hp

/-- C3 witness: the fixed-point element run has outlet pressure
`max(pinE - pinE, 0)`, and a zero-element simulate call returns the feed
pressure as the 0-fold update. -/
theorem C3_pressure_chain_witness :
    calc_element_logmean 1e6 50 pinE 1 AE BE pinE 0
      = .ok ⟨1, 50, 1e6 - 1, 50, 0⟩ ∧
    (⟨1, 50, 1e6 - 1, 50, 0⟩ : ElemOut).p_out = max (pinE - pinE) 0 ∧
    simulate_ro_logmean 30 2000 15.5 25 "M" 0 [("M", demoSpec)]
      = .ok ⟨"M", 30, 2000, 25, 0, 0, 0, 0, 30, 2000, 15.5⟩ ∧
    (⟨"M", 30, 2000, 25, 0, 0, 0, 0, 30, 2000, 15.5⟩ : SimResult).FinalPressure
      = (fun x => max (x - demoSpec.default_dP_element) 0)^[0] 15.5 := by
  have hs := simulate_zero_elements 30 2000 15.5 25 "M" demoSpec
    [("M", demoSpec)] lookup_M_demoSpec
  exact ⟨calc_good_eval,
    C3_pressure_chain.1 1e6 50 pinE 1 AE BE pinE 0 _ calc_good_eval,
    hs,
    C3_pressure_chain.2 30 2000 15.5 25 "M" 0 [("M", demoSpec)] demoSpec _
      lookup_M_demoSpec hs⟩

/-- C4 (amended): whenever the element solver returns a result it executed
exactly 5 fixed-point passes (no convergence test or residual-based exit),
and whenever a simulate call returns a result its total work is exactly
`5 · num_elements` passes; in every case (raising included) the work is
bounded by `5 · num_elements`, so every call terminates.  The original
claim's "exactly 5 passes for every input" fails when a pass raises. -/
theorem C4_fixed_passes :
    (∀ qf cf pin area A B dP osm : ℝ,
        (calc_element_logmean qf cf pin area A B dP osm).isOk = true →
        elementPassCount qf cf pin area A B dP osm = 5) ∧
    (∀ (f c p t : ℝ) (prod : String) (n : ℕ)
        (data : List (String × MembraneSpec)),
        (simulate_ro_logmean f c p t prod n data).isOk = true →
        simulatePassCount f c p t prod n data = 5 * n) ∧
    (∀ (f c p t : ℝ) (prod : String) (n : ℕ)
        (data : List (String × MembraneSpec)),
        simulatePassCount f c p t prod n data ≤ 5 * n) := by
  refine ⟨?_, ?_, ?_⟩
  · intro qf cf pin area A B dP osm hok
    cases h : calc_element_logmean qf cf pin area A B dP osm with
    | error e =>
        rw [h] at hok
        exact Bool.noConfusion hok
    | ok out =>
        exact elementPassCount_ok qf cf pin area A B dP osm out h
  · intro f c p t prod n data hok
    cases h : simulate_ro_logmean f c p t prod n data with
    | error e =>
        rw [h] at hok
        exact Bool.noConfusion hok
    | ok r =>
        exact simulate_ok_passCount f c p t prod n data r h
  · intro f c p t prod n data
    exact simulatePassCount_le f c p t prod n data

/-- C4 witness: the fixed-point element run executes 5 passes, and the
one-element simulate run executes `5 · 1` passes, within the bound. -/
theorem C4_fixed_passes_witness :
    (calc_element_logmean 1e6 50 pinE 1 AE BE pinE 0).isOk = true ∧
    elementPassCount 1e6 50 pinE 1 AE BE pinE 0 = 5 ∧
    (simulate_ro_logmean 1e6 50 pinN 25 "M" 1 [("M", specNeg)]).isOk = true ∧
    simulatePassCount 1e6 50 pinN 25 "M" 1 [("M", specNeg)] = 5 * 1 ∧
    simulatePassCount 1e6 50 pinN 25 "M" 1 [("M", specNeg)] ≤ 5 * 1 := by
  have h1 : (calc_element_logmean 1e6 50 pinE 1 AE BE pinE 0).isOk = true := by
    rw [calc_good_eval]
    rfl
  have h2 : (simulate_ro_logmean 1e6 50 pinN 25 "M" 1
      [("M", specNeg)]).isOk = true := by
    rw [simulate_neg_eval]
    rfl
  exact ⟨h1, C4_fixed_passes.1 1e6 50 pinE 1 AE BE pinE 0 h1, h2,
    C4_fixed_passes.2.1 1e6 50 pinN 25 "M" 1 [("M", specNeg)] h2,
    C4_fixed_passes.2.2 1e6 50 pinN 25 "M" 1 [("M", specNeg)]⟩

/-- C4 counterexample: on the `dP_element = 0` spec the single element's
first pass raises, so one simulate call performs 1 pass, not
`5 · num_elements = 5`. -/
theorem C4_fixed_passes_cex :
    simulatePassCount 30 2000 10 25 "M" 1 [("M", specErr)] = 1 ∧
    (1 : ℕ) ≠ 5 * 1 :=
  ⟨simulatePassCount_err_eval, by norm_num⟩

/-- C5: the temperature correction factor equals
`max(0, 1 + 0.03·(t - 25))`, both coefficients are scaled by it once
before the element loop, and the same corrected coefficients are reused
for every element: pre-scaling the registry entry and simulating at the
reference temperature gives the identical result (up to the echoed
temperature field). -/
theorem C5_temperature_correction :
    (∀ t : ℝ, tcf_code t = max 0 (1 + 0.03 * (t - 25))) ∧
    (∀ (f c p t : ℝ) (prod : String) (spec : MembraneSpec) (n : ℕ)
        (data data2 : List (String × MembraneSpec)),
        data.lookup prod = some spec →
        data2.lookup prod = some ⟨spec.A_value * tcf_code t,
          spec.B_value * tcf_code t, spec.area_m2, spec.default_dP_element,
          spec.default_osm_coef⟩ →
        Except.map (fun r => { r with Temperature_degC := (25 : ℝ) })
            (simulate_ro_logmean f c p t prod n data)
          = simulate_ro_logmean f c p 25 prod n data2) :=
  ⟨tcf_code_eq_max,
    fun f c p t prod spec n data data2 h1 h2 =>
      simulate_factor f c p t prod spec n data data2 h1 h2⟩

/-- C5 witness: instantiated at temperature 30 over the demo spec with the
pre-scaled registry on the right-hand side. -/
theorem C5_temperature_correction_witness :
    ([("M", demoSpec)] : List (String × MembraneSpec)).lookup "M"
      = some demoSpec ∧
    ([("M", MembraneSpec.mk (demoSpec.A_value * tcf_code 30)
        (demoSpec.B_value * tcf_code 30) demoSpec.area_m2
        demoSpec.default_dP_element demoSpec.default_osm_coef)] :
      List (String × MembraneSpec)).lookup "M"
      = some ⟨demoSpec.A_value * tcf_code 30, demoSpec.B_value * tcf_code 30,
          demoSpec.area_m2, demoSpec.default_dP_element,
          demoSpec.default_osm_coef⟩ ∧
    Except.map (fun r => { r with Temperature_degC := (25 : ℝ) })
        (simulate_ro_logmean 30 2000 15.5 30 "M" 0 [("M", demoSpec)])
      = simulate_ro_logmean 30 2000 15.5 25 "M" 0
          [("M", MembraneSpec.mk (demoSpec.A_value * tcf_code 30)
            (demoSpec.B_value * tcf_code 30) demoSpec.area_m2
            demoSpec.default_dP_element demoSpec.default_osm_coef)] := by
  have h2 : ([("M", MembraneSpec.mk (demoSpec.A_value * tcf_code 30)
      (demoSpec.B_value * tcf_code 30) demoSpec.area_m2
      demoSpec.default_dP_element demoSpec.default_osm_coef)] :
      List (String × MembraneSpec)).lookup "M"
      = some ⟨demoSpec.A_value * tcf_code 30, demoSpec.B_value * tcf_code 30,
          demoSpec.area_m2, demoSpec.default_dP_element,
          demoSpec.default_osm_coef⟩ := rfl
  exact ⟨lookup_M_demoSpec, h2,
    C5_temperature_correction.2 30 2000 15.5 30 "M" demoSpec 0
      [("M", demoSpec)] _ lookup_M_demoSpec h2⟩

/-- C6: `simulate_ro_logmean` fails with the product-not-found error exactly
when the product is absent from the membrane data; the check precedes all
numeric work (the error is returned for every numeric input, with no
element solved), and a present product can only fail with a numeric
error. -/
theorem C6_not_found_iff :
    (∀ (f c p t : ℝ) (prod : String) (n : ℕ)
        (data : List (String × MembraneSpec)),
        data.lookup prod = none →
        simulate_ro_logmean f c p t prod n data
          = .error (.productNotFound prod)) ∧
    (∀ (f c p t : ℝ) (prod s : String) (n : ℕ)
        (data : List (String × MembraneSpec)),
        simulate_ro_logmean f c p t prod n data
          = .error (.productNotFound s) →
        data.lookup prod = none ∧ s = prod) :=
  ⟨fun f c p t prod n data h => simulate_notFound f c p t prod n data h,
    fun f c p t prod s n data h =>
      simulate_notFound_inv f c p t prod s n data h⟩

/-- C6 witness: an empty registry rejects the product before any numeric
work, and the resulting error identifies the product. -/
theorem C6_not_found_witness :
    (([] : List (String × MembraneSpec)).lookup "X" = none) ∧
    simulate_ro_logmean 30 2000 15.5 25 "X" 4 []
      = .error (.productNotFound "X") ∧
    (([] : List (String × MembraneSpec)).lookup "X" = none ∧ "X" = "X") := by
  have h1 : ([] : List (String × MembraneSpec)).lookup "X" = none := rfl
  have h2 := C6_not_found_iff.1 30 2000 15.5 25 "X" 4 [] h1
  exact ⟨h1, h2, C6_not_found_iff.2 30 2000 15.5 25 "X" "X" 4 [] h2⟩

/-- C7 (amended): with a non-negative `dP_element`, every solved element's
outlet pressure is at most its inlet pressure and a successful simulate
call's final pressure is at most the feed pressure; the original claim has
no such restriction and fails for a negative `dP_element`. -/
theorem C7_pressure_monotone :
    (∀ (qf cf pin area A B dP osm : ℝ) (out : ElemOut), 0 ≤ dP →
        calc_element_logmean qf cf pin area A B dP osm = .ok out →
        out.p_out ≤ pin) ∧
    (∀ (f c p t : ℝ) (prod : String) (n : ℕ)
        (data : List (String × MembraneSpec)) (spec : MembraneSpec)
        (r : SimResult),
        data.lookup prod = some spec → 0 ≤ spec.default_dP_element →
        simulate_ro_logmean f c p t prod n data = .ok r →
        r.FinalPressure ≤ p) := by
  constructor
  · intro qf cf pin area A B dP osm out hdP h
    have hpos := calc_element_ok_pin_pos qf cf pin area A B dP osm out h
    rw [calc_element_ok_p_out qf cf pin area A B dP osm out h]
    exact max_le (by linarith) hpos.le
  · intro f c p t prod n data spec r hl hdP h
    obtain ⟨spec', st, tot, hl', hs, hr⟩ := simulate_ok_inv f c p t prod n
      data r h
    rw [hl] at hl'
    injection hl' with hspec
    subst hspec
    have hle := simLoop_ok_pressure_le spec.area_m2
      (spec.A_value * tcf_code t) (spec.B_value * tcf_code t)
      spec.default_dP_element spec.default_osm_coef hdP n f c p (0, 0)
      (st, tot) hs
    rw [hr]
    exact hle

/-- C7 witness: a solved element with `dP_element = pinE ≥ 0` has outlet
pressure `0 ≤ pinE`, and a zero-element simulate call keeps the feed
pressure. -/
theorem C7_pressure_monotone_witness :
    (0 : ℝ) ≤ pinE ∧
    calc_element_logmean 1e6 50 pinE 1 AE BE pinE 0
      = .ok ⟨1, 50, 1e6 - 1, 50, 0⟩ ∧
    (⟨1, 50, 1e6 - 1, 50, 0⟩ : ElemOut).p_out ≤ pinE ∧
    (0 : ℝ) ≤ demoSpec.default_dP_element ∧
    simulate_ro_logmean 30 2000 15.5 25 "M" 0 [("M", demoSpec)]
      = .ok ⟨"M", 30, 2000, 25, 0, 0, 0, 0, 30, 2000, 15.5⟩ ∧
    (⟨"M", 30, 2000, 25, 0, 0, 0, 0, 30, 2000, 15.5⟩ :
      SimResult).FinalPressure ≤ 15.5 := by
  have hdPE : (0 : ℝ) ≤ pinE := by
    unfold pinE
    positivity
  have hd : (0 : ℝ) ≤ demoSpec.default_dP_element :=
    (by norm_num : (0 : ℝ) ≤ 0.3)
  have hs := simulate_zero_elements 30 2000 15.5 25 "M" demoSpec
    [("M", demoSpec)] lookup_M_demoSpec
  exact ⟨hdPE, calc_good_eval,
    C7_pressure_monotone.1 1e6 50 pinE 1 AE BE pinE 0 _ hdPE calc_good_eval,
    hd, hs,
    C7_pressure_monotone.2 30 2000 15.5 25 "M" 0 [("M", demoSpec)] demoSpec _
      lookup_M_demoSpec hd hs⟩

/-- C7 counterexample: over a spec with `dP_element = -1` the one-element
simulate call returns a final pressure `pinN + 1` strictly above the feed
pressure `pinN` — pressure is not non-increasing along the chain. -/
theorem C7_pressure_increase_cex :
    simulate_ro_logmean 1e6 50 pinN 25 "M" 1 [("M", specNeg)]
      = .ok ⟨"M", 1e6, 50, 25, 1, 1, 1 / 10000, 50, 1e6 - 1, 50, pinN + 1⟩ ∧
    ¬ ((pinN + 1 : ℝ) ≤ pinN) :=
  ⟨simulate_neg_eval, by norm_num⟩

/-- C8: both post-loop divisions are guarded — a feed flow at or below
1e-12 yields recovery 0, and a total permeate flow at or below 1e-12
yields permeate TDS 0, so neither field is ever produced by a division
with a degenerate denominator. -/
theorem C8_zero_guards (f c p t : ℝ) (prod : String) (n : ℕ)
    (data : List (String × MembraneSpec)) (r : SimResult)
    (h : simulate_ro_logmean f c p t prod n data = .ok r) :
    (f ≤ 1e-12 → r.Recovery_pct = 0) ∧
    (r.PermeateFlow ≤ 1e-12 → r.PermeateTDS = 0) := by
  obtain ⟨spec, st, tot, hl, hs, hr⟩ := simulate_ok_inv f c p t prod n
    data r h
  subst hr
  constructor
  · intro hf
    exact if_neg (not_lt.mpr hf)
  · intro hp
    exact if_neg (not_lt.mpr hp)

/-- C8 witness: a zero-feed, zero-element call returns recovery 0 and
permeate TDS 0. -/
theorem C8_zero_guards_witness :
    simulate_ro_logmean 0 2000 15.5 25 "M" 0 [("M", demoSpec)]
      = .ok ⟨"M", 0, 2000, 25, 0, 0, 0, 0, 0, 2000, 15.5⟩ ∧
    (0 : ℝ) ≤ 1e-12 ∧
    (⟨"M", 0, 2000, 25, 0, 0, 0, 0, 0, 2000, 15.5⟩ :
      SimResult).Recovery_pct = 0 ∧
    (⟨"M", 0, 2000, 25, 0, 0, 0, 0, 0, 2000, 15.5⟩ :
      SimResult).PermeateTDS = 0 := by
  have h := simulate_zero_elements 0 2000 15.5 25 "M" demoSpec
    [("M", demoSpec)] lookup_M_demoSpec
  exact ⟨h, by norm_num,
    (C8_zero_guards 0 2000 15.5 25 "M" 0 [("M", demoSpec)] _ h).1
      (by norm_num : (0 : ℝ) ≤ 1e-12),
    (C8_zero_guards 0 2000 15.5 25 "M" 0 [("M", demoSpec)] _ h).2
      (by norm_num : (0 : ℝ) ≤ 1e-12)⟩

/-- C9: appending a batch of results to an absent history file and loading
returns exactly those records in append order with all fields preserved;
one append extends the loaded sequence by exactly its own row, leaving all
prior records unmodified; loading an absent file gives the empty
sequence. -/
theorem C9_history_roundtrip :
    (∀ batch : List (SimResult × String),
        load_calculation_history (appendAll batch none)
          = batch.map (fun x => row_of_result x.2 x.1)) ∧
    (∀ (file : Option (List HistRecord)) (r : SimResult) (ts : String),
        load_calculation_history (append_result_to_csv r ts file)
          = load_calculation_history file ++ [row_of_result ts r]) ∧
    load_calculation_history none = [] :=
  ⟨load_appendAll_none, load_append_one, rfl⟩

/-- C10: `num_elements = 0` is not rejected: the simulate call succeeds with
zero permeate flow, zero recovery, zero permeate TDS, and the feed stream
passed through unchanged as the concentrate and final pressure. -/
theorem C10_zero_elements (f c p t : ℝ) (prod : String)
    (spec : MembraneSpec) (data : List (String × MembraneSpec))
    (h : data.lookup prod = some spec) :
    simulate_ro_logmean f c p t prod 0 data
      = .ok ⟨prod, f, c, t, 0, 0, 0, 0, f, c, p⟩ :=
  simulate_zero_elements f c p t prod spec data h

/-- C10 witness: the demo spec with zero elements passes the feed through. -/
theorem C10_zero_elements_witness :
    ([("M", demoSpec)] : List (String × MembraneSpec)).lookup "M"
      = some demoSpec ∧
    simulate_ro_logmean 30 2000 15.5 20 "M" 0 [("M", demoSpec)]
      = .ok ⟨"M", 30, 2000, 20, 0, 0, 0, 0, 30, 2000, 15.5⟩ :=
  ⟨lookup_M_demoSpec,
    C10_zero_elements 30 2000 15.5 20 "M" demoSpec [("M", demoSpec)]
      lookup_M_demoSpec⟩
